import Mathlib

/-!
Verification of the annotation-extraction engine
(`CustomAnnotation.py`, `multi_file_annotation.py`).

The Python sources are shallowly embedded below: pure string processing
becomes Lean functions over `List Char` / `String`, Python exceptions
(`IndexError`, `AssertionError`) become `Except.error`, and the logging
side channel becomes an explicit list of log messages in the result.
-/

/-! ## String utilities shared by the Sentence Aligner embedding -/

/-- Python's `\s` character class restricted to ASCII, as used by
`re.split(r'(?<=[.!?])\s+', ...)` and `str.strip()` in
`CustomAnnotation.set_context_sentence`. -/
def isPySpace (c : Char) : Bool :=
  c = ' ' || c = '\t' || c = '\n' || c = '\r' || c = '\x0b' || c = '\x0c'

/-- Sentence-boundary punctuation of the regex lookbehind `(?<=[.!?])`. -/
def isPunct (c : Char) : Bool :=
  c = '.' || c = '!' || c = '?'

/-- Python `str.strip()` on the character list. -/
def pyStripL (l : List Char) : List Char :=
  ((l.dropWhile isPySpace).reverse.dropWhile isPySpace).reverse

/-- Python `str.strip()`. -/
def pyStrip (s : String) : String :=
  String.mk (pyStripL s.data)

/-- Head of the current (reversed) segment is a sentence-final punctuation
character; this is the regex lookbehind test. -/
def headIsPunct : List Char → Bool
  | [] => false
  | c :: _ => isPunct c

/-- State machine for `re.split(r'(?<=[.!?])\s+', s)`: `cur` is the current
segment (reversed); the `Bool` flag records that we are inside the
whitespace run of a boundary match (the `\s+` being consumed). -/
def reSplitGo : List Char → List Char → Bool → List (List Char)
  | [], cur, _ => [cur.reverse]
  | c :: rest, cur, skipping =>
    if skipping then
      if isPySpace c then reSplitGo rest [] true
      else reSplitGo rest [c] false
    else if isPySpace c && headIsPunct cur then
      cur.reverse :: reSplitGo rest [] true
    else reSplitGo rest (c :: cur) false

/-- Embedding of `re.split(r'(?<=[.!?])\s+', s)`: split at every maximal
whitespace run that immediately follows one of `.`, `!`, `?`. -/
def reSplit (s : String) : List String :=
  (reSplitGo s.data [] false).map String.mk

/-- Prefix test on character lists (needle first). -/
def listPrefixB : List Char → List Char → Bool
  | [], _ => true
  | _ :: _, [] => false
  | a :: as, b :: bs => a = b && listPrefixB as bs

/-- Substring test on character lists; embeds Python's `needle in hay`. -/
def listSubstrB (needle : List Char) : List Char → Bool
  | [] => listPrefixB needle []
  | c :: rest => listPrefixB needle (c :: rest) || listSubstrB needle rest

/-- Python's `needle in hay` on strings. -/
def strIn (needle hay : String) : Bool :=
  listSubstrB needle.data hay.data

/-- Fuel-driven worker for Python `str.replace` (fuel = remaining length,
which suffices because every step consumes at least one character). -/
def replaceFuel (pat rep : List Char) : Nat → List Char → List Char
  | 0, l => l
  | _ + 1, [] => []
  | fuel + 1, c :: rest =>
    if listPrefixB pat (c :: rest) then
      rep ++ replaceFuel pat rep fuel (rest.drop (pat.length - 1))
    else c :: replaceFuel pat rep fuel rest

/-- Python `s.replace(pat, rep)` for a non-empty pattern (the patterns used
by the source are `"-\n"` and `"\n"`). -/
def pyReplace (s pat rep : String) : String :=
  if pat.data = [] then s
  else String.mk (replaceFuel pat.data rep.data s.data.length s.data)

/-- Per-sentence normalisation from `set_context_sentence` line 21:
`str(x).replace("-\n", "-").replace("\n", " ")`. -/
def normalizeSent (s : String) : String :=
  pyReplace (pyReplace s "-\n" "-") "\n" " "

/-- Python `" ".join(l)`. -/
def joinSpace : List String → String
  | [] => ""
  | [s] => s
  | s :: rest => s ++ " " ++ joinSpace rest

/-! ## The Sentence Aligner (`CustomAnnotation.set_context_sentence`) -/

/-- Embedding of the inner loop of `set_context_sentence` (lines 35-38):
for each remaining annotation-sentence fragment `f`, Python evaluates
`sentences[k+1]` (raising `IndexError` when `k+1` is out of range) and, if
`f` is a substring of its stripped form, appends it and advances `k`;
otherwise `k` is left unchanged and the loop continues with the next
fragment. -/
def innerLoop (sentences : List String) : List String → Nat → List String → Except String (List String)
  | [], _, acc => Except.ok acc
  | f :: restFrags, k, acc =>
    match sentences[k + 1]? with
    | none => Except.error "IndexError"
    | some s =>
      if strIn f (pyStrip s) then innerLoop sentences restFrags (k + 1) (acc ++ [pyStrip s])
      else innerLoop sentences restFrags k acc

/-- Embedding of the outer loop of `set_context_sentence` (lines 28-40):
scan the page sentences in order; at the first sentence whose stripped form
contains the first annotation fragment, run the inner loop and return the
space-joined accumulated text; if no sentence matches, the context is left
unset (`none`). -/
def outerLoop (sentences : List String) (frag0 : String) (fragRest : List String) : List String → Nat → Except String (Option String)
  | [], _ => Except.ok none
  | s :: rest, i =>
    if strIn frag0 (pyStrip s) then
      match innerLoop sentences fragRest i [pyStrip s] with
      | Except.error e => Except.error e
      | Except.ok acc => Except.ok (some (joinSpace acc))
    else outerLoop sentences frag0 fragRest rest (i + 1)

/-- Embedding of `CustomAnnotation.set_context_sentence`.

Modelled from the spec: the annotation's captured text (the library
attribute `self.text` and the accessor `self.gettext()`, both defined in
the external `pdfannots` library, outside this repository's sources) is
taken to be one plain string, the "captured/highlighted text" that §4.6 of
the spec feeds to the Sentence Aligner; the guard `if not ... self.text`
is Python truthiness of that string, i.e. the test `text ≠ ""`.

The result is `Except.error` for a raised exception, and otherwise the
final value of `context_sentence` (`none` = the initial `None`). -/
def set_context_sentence (text : String) (pageText : String) : Except String (Option String) :=
  if text = "" then Except.ok none
  else
    let sentences := (reSplit pageText).map normalizeSent
    let annotationText := pyStrip text
    match (reSplit annotationText).map pyStrip with
    | [] => Except.error "IndexError"
    | f0 :: frest => outerLoop sentences f0 frest sentences 0

/-! ## Spec-side models of the Sentence Aligner extension step (§4.6)

The two functions below follow the WORDS of spec §4.6 step 5 (and of claim
C1), not the source: the window extension as the claim states it
(`extendStop`: a fragment that fails to match stops extension outright)
and as amended (`extendSkip`: a failing fragment contributes nothing but
later fragments are still checked against the sentence following the
current window end). They exist to be compared with the source embedding
`set_context_sentence`. -/

/-- Spec-worded extension (claim C1 as stated): check fragment `j` against
the page sentence following the current window end; on the first failure
stop extending, ignoring all remaining fragments. -/
def extendStop (sentences : List String) : List String → Nat → List String
  | [], _ => []
  | f :: restFrags, k =>
    match sentences[k + 1]? with
    | none => []
    | some s =>
      if strIn f (pyStrip s) then pyStrip s :: extendStop sentences restFrags (k + 1)
      else []

/-- Spec-worded extension as amended: a failing fragment is skipped (the
window end stays put) and the remaining fragments are still checked
against the sentence following the current window end. -/
def extendSkip (sentences : List String) : List String → Nat → List String
  | [], _ => []
  | f :: restFrags, k =>
    match sentences[k + 1]? with
    | none => []
    | some s =>
      if strIn f (pyStrip s) then pyStrip s :: extendSkip sentences restFrags (k + 1)
      else extendSkip sentences restFrags k

/-- Spec §4.6 step 4: scan page sentences in order for the first one whose
stripped form contains the first annotation fragment; return its index and
the sentence. -/
def scanFirst (frag0 : String) : List String → Nat → Option (Nat × String)
  | [], _ => none
  | s :: rest, i =>
    if strIn frag0 (pyStrip s) then some (i, s) else scanFirst frag0 rest (i + 1)

/-- Spec-worded aligner, parametric in the extension step of §4.6 step 5:
guard on empty captured text, split page and annotation text into
sentences exactly as the source does, find the first matching page
sentence, extend with `ext`, and space-join the window. -/
def alignCore (ext : List String → List String → Nat → List String) (text pageText : String) : Option String :=
  if text = "" then none
  else
    let sentences := (reSplit pageText).map normalizeSent
    match (reSplit (pyStrip text)).map pyStrip with
    | [] => none
    | f0 :: frest =>
      match scanFirst f0 sentences 0 with
      | none => none
      | some (i, s) => some (joinSpace (pyStrip s :: ext sentences frest i))

/-- Aligner whose extension step stops at the first failing fragment —
claim C1 exactly as stated. -/
def alignerSpecStop (text pageText : String) : Option String :=
  alignCore extendStop text pageText

/-- Aligner whose extension step skips a failing fragment — claim C1 as
amended. -/
def alignerSpecSkip (text pageText : String) : Option String :=
  alignCore extendSkip text pageText

/-! ## Per-page control flow of `custom_process_file` (lines 228-241)

For claim C5 the relevant content of `custom_process_file` is the ORDER of
the per-page processing steps, embedded as an event trace for one page
holding `n` annotations (a page that is actually processed, i.e. not
skipped by the `if not (page.annots or page.outlines)` guard). -/

/-- One per-page processing step of `custom_process_file`. -/
inductive PStep
  | render
  | sortAnnots
  | sortOutlines
  | postprocessA (i : Nat)
  | setContextA (i : Nat)
deriving DecidableEq

/-- Trace of the loop `for a in page.annots: a.postprocess(...);
a.set_context_sentence(...)` (lines 239-241), for annotations
`i, i+1, ...` (`n` of them). -/
def annotSteps : Nat → Nat → List PStep
  | 0, _ => []
  | n + 1, i => PStep.postprocessA i :: PStep.setContextA i :: annotSteps n (i + 1)

/-- Event trace of the per-page section of `custom_process_file`
(lines 228-241) for a page with `n` annotations: render the page
(`interpreter.process_page`), sort annotations, sort outlines, then run
the Relationship Resolver and Sentence Aligner per annotation. -/
def pageTrace (n : Nat) : List PStep :=
  PStep.render :: PStep.sortAnnots :: PStep.sortOutlines :: annotSteps n 0

/-- Position of the first occurrence of a step in a trace. -/
def stepPos (s : PStep) : List PStep → Option Nat
  | [] => none
  | t :: rest => if t = s then some 0 else (stepPos s rest).map (fun n => n + 1)

/-! ## Outline resolution in `custom_process_file` (lines 178-205, 248-250)

Outlines are identified by their index in the document-level outline list;
an outline is represented by its page reference. Pages are given by their
object identifiers in document order (the page number is the position).
The two `defaultdict(list)` mappings become association lists from key to
the list of waiting outline indices. -/

/-- Page reference of one outline entry: either a PDF object reference
(matched against `page.objid`) or a raw page number (matched against the
enumeration index `pageno`). -/
inductive Pageref
  | byObjid (objid : Nat)
  | byPageno (pageno : Nat)
deriving DecidableEq

/-- One of the two pending-resolution mappings: key to waiting outline
indices, keys unique by construction. -/
abbrev ODict := List (Nat × List Nat)

/-- Embedding of `d[k].append(v)` on a `defaultdict(list)`. -/
def dictAdd : ODict → Nat → Nat → ODict
  | [], k, v => [(k, [v])]
  | (k', vs) :: rest, k, v =>
    if k' = k then (k', vs ++ [v]) :: rest
    else (k', vs) :: dictAdd rest k v

/-- Embedding of `d.pop(k, [])`: the waiting list under `k` (empty when
absent) together with the dictionary with `k` removed. -/
def dictPop : ODict → Nat → List Nat × ODict
  | [], _ => ([], [])
  | (k', vs) :: rest, k =>
    if k' = k then (vs, rest)
    else
      let r := dictPop rest k
      (r.1, (k', vs) :: r.2)

/-- Embedding of the outline partition loop (lines 182-186): outline `i`
is filed under its object id or its raw page number. -/
def buildDictsGo : List Pageref → Nat → ODict → ODict → ODict × ODict
  | [], _, d1, d2 => (d1, d2)
  | Pageref.byObjid o :: rest, i, d1, d2 => buildDictsGo rest (i + 1) (dictAdd d1 o i) d2
  | Pageref.byPageno p :: rest, i, d1, d2 => buildDictsGo rest (i + 1) d1 (dictAdd d2 p i)

/-- The two pending-resolution mappings (`outlines_by_objid`,
`outlines_by_pageno`) built from the document outline list. -/
def buildDicts (prefs : List Pageref) : ODict × ODict :=
  buildDictsGo prefs 0 [] []

/-- Embedding of the page enumeration (lines 194-205 restricted to outline
resolution): page `pageno` with object id `objid` pops
`outlines_by_objid.pop(page.objid, []) + outlines_by_pageno.pop(pageno, [])`
and links those outlines to itself. Returns the final two mappings and the
per-page outline lists. -/
def resolvePages : ODict → ODict → List Nat → Nat → ODict × ODict × List (List Nat)
  | d1, d2, [], _ => (d1, d2, [])
  | d1, d2, objid :: rest, pageno =>
    let p1 := dictPop d1 objid
    let p2 := dictPop d2 pageno
    let res := resolvePages p1.2 p2.2 rest (pageno + 1)
    (res.1, res.2.1, (p1.1 ++ p2.1) :: res.2.2)

/-- Embedding of the outline-resolution skeleton of `custom_process_file`:
build the two mappings, drain them while enumerating the pages (given by
their object ids), and finally run the two consistency asserts
`assert {} == outlines_by_pageno` / `assert {} == outlines_by_objid`
(lines 249-250); a failing assert is the raised `AssertionError`. -/
def custom_process_file_outlines (prefs : List Pageref) (objids : List Nat) : Except String (List (List Nat)) :=
  let d := buildDicts prefs
  let r := resolvePages d.1 d.2 objids 0
  if r.2.1 = [] then
    if r.1 = [] then Except.ok r.2.2 else Except.error "AssertionError"
  else Except.error "AssertionError"

/-- Occurrence count of a natural number in a list. -/
def cnt (x : Nat) : List Nat → Nat
  | [] => 0
  | y :: rest => (if y = x then 1 else 0) + cnt x rest

/-- Sum of a list of naturals. -/
def sumL : List Nat → Nat
  | [] => 0
  | y :: rest => y + sumL rest

/-- Total count of an outline index across all values of a mapping. -/
def dcount (d : ODict) (x : Nat) : Nat :=
  sumL (d.map (fun e => cnt x e.2))

/-! ## `mkannotationcustom` (multi_file_annotation.py lines 67-142)

Decoded PDF values reaching the function are modelled as follows: a value
that may or may not be a `PSLiteral` becomes `PSVal` (interning makes the
Python `is` comparison of literals a name comparison); the resolved color
value becomes `PColor`; decoded strings stay `String`. The `logger`
side channel becomes an explicit list of `LogMsg` in the result, and the
failing `assert isinstance(subtype, PSLiteral)` becomes
`Except.error "AssertionError"`. -/

/-- Decoded PDF value that is either an interned `PSLiteral` (identified by
its name) or some other object (tagged arbitrarily). -/
inductive PSVal
  | lit (name : String)
  | nonlit (tag : Nat)
deriving DecidableEq

/-- Result of `pdftypes.resolve1(pa.get('C'))`: a Python list of numbers,
or some other value with the given truthiness. -/
inductive PColor
  | plist (rgb : List Rat)
  | pother (truthy : Bool)
deriving DecidableEq

/-- Warnings issued by `mkannotationcustom` through `logger.warning`. -/
inductive LogMsg
  | unsupportedSubtype (name : String)
  | invalidColor
  | unexpectedRT
deriving DecidableEq

/-- Raw annotation descriptor: the fields of the Python dict `pa` that
`mkannotationcustom` reads, each already passed through the external
decoding helpers (`resolve1`, `decode_text`). -/
structure RawAnnot where
  subtype : Option PSVal
  contents : Option String
  color : Option PColor
  rect : Option (List Rat)
  quadpoints : Option (List Rat)
  author : Option String
  name : Option String
  creationDate : Option String
  modDate : Option String
  mDate : Option String
  irt : Option PSVal
  rt : Option PSVal
deriving DecidableEq

/-- Modelled from the spec: the fixed enumeration of supported annotation
types (`pdfannots.types.AnnotationType`, external to this repository) —
"highlight, underline, strike-out, squiggly, text/comment, free text"
(spec §3, Annotation data model). -/
inductive AnnotType
  | Highlight
  | Underline
  | StrikeOut
  | Squiggly
  | Text
  | FreeText
deriving DecidableEq

/-- Embedding of `ANNOT_SUBTYPES` (lines 27-28): mapping from the interned
`PSLiteral` name `e.name` to the enumerant, for supported types. -/
def ANNOT_SUBTYPES (s : String) : Option AnnotType :=
  if s = "Highlight" then some AnnotType.Highlight
  else if s = "Underline" then some AnnotType.Underline
  else if s = "StrikeOut" then some AnnotType.StrikeOut
  else if s = "Squiggly" then some AnnotType.Squiggly
  else if s = "Text" then some AnnotType.Text
  else if s = "FreeText" then some AnnotType.FreeText
  else none

/-- Embedding of `IGNORED_ANNOT_SUBTYPES` (lines 31-36): annotation types
ignored without issuing a warning. -/
def IGNORED_ANNOT_SUBTYPES : List String := ["Link", "Popup"]

/-- Resulting annotation record: the arguments `mkannotationcustom` passes
to the `CustomAnnotation` constructor (the owning page is dropped;
`created` keeps the raw chained date value, its decoding being external). -/
structure CAnnot where
  annotType : AnnotType
  contents : Option String
  rgb : Option (List Rat)
  rect : Option (List Rat)
  quadpoints : Option (List Rat)
  author : Option String
  name : Option String
  createdRaw : Option String
  inReplyToRef : Option PSVal
  isGroupChild : Bool
deriving DecidableEq

/-- Python `a or b` for optional decoded strings (an empty string is
falsy), as in `dobj = dobj or pa.get('ModDate')`. -/
def pyOr (a b : Option String) : Option String :=
  match a with
  | none => b
  | some s => if s = "" then b else some s

/-- Embedding of the color branch (lines 95-103): a non-empty list of
three numbers within `[0, 1]` becomes the RGB value; any other truthy
value warns and leaves the color absent. -/
def processColor : Option PColor → Option (List Rat) × List LogMsg
  | none => (none, [])
  | some (PColor.plist l) =>
    if l = [] then (none, [])
    else if l.length = 3 && l.all (fun e => decide (0 ≤ e) && decide (e ≤ 1)) then (some l, [])
    else (none, [LogMsg.invalidColor])
  | some (PColor.pother b) =>
    if b then (none, [LogMsg.invalidColor]) else (none, [])

/-- Embedding of the reply branch (lines 131-138): with an `IRT` present,
`RT` equal to the interned literal `Group` marks a grouped reply; an
absent `RT` or the literal `R` is a plain reply; anything else warns and
is treated as a plain reply. -/
def replyClassify (irtv : Option PSVal) (rtv : Option PSVal) : Bool × List LogMsg :=
  match irtv with
  | none => (false, [])
  | some _ =>
    if rtv = some (PSVal.lit "Group") then (true, [])
    else if ¬ (rtv = none ∨ rtv = some (PSVal.lit "R")) then (false, [LogMsg.unexpectedRT])
    else (false, [])

/-- Embedding of `mkannotationcustom` (lines 67-142): assert the subtype
is a `PSLiteral`; drop unsupported subtypes (`none`), warning unless the
subtype is in the ignore list; otherwise build the annotation record,
collecting the warnings issued along the way. -/
def mkannotationcustom (pa : RawAnnot) : Except String (Option CAnnot × List LogMsg) :=
  match pa.subtype with
  | some (PSVal.lit sname) =>
    match ANNOT_SUBTYPES sname with
    | none =>
      if sname ∈ IGNORED_ANNOT_SUBTYPES then Except.ok (none, [])
      else Except.ok (none, [LogMsg.unsupportedSubtype sname])
    | some t =>
      let colorRes := processColor pa.color
      let reply := replyClassify pa.irt pa.rt
      Except.ok (some {
        annotType := t
        contents := pa.contents
        rgb := colorRes.1
        rect := pa.rect
        quadpoints := pa.quadpoints
        author := pa.author
        name := pa.name
        createdRaw := pyOr (pyOr pa.creationDate pa.modDate) pa.mDate
        inReplyToRef := pa.irt
        isGroupChild := reply.1 }, colorRes.2 ++ reply.2)
  | _ => Except.error "AssertionError"

/-- All-absent raw annotation descriptor, used to build concrete inputs. -/
def baseRA : RawAnnot :=
  { subtype := none, contents := none, color := none, rect := none
    quadpoints := none, author := none, name := none, creationDate := none
    modDate := none, mDate := none, irt := none, rt := none }

/-! ## Helper lemmas about the Sentence Aligner embedding -/

theorem reSplitGo_ne_nil : ∀ (l cur : List Char) (b : Bool), reSplitGo l cur b ≠ [] := by
  intro l
  induction l with
  | nil => intro cur b; simp [reSplitGo]
  | cons c rest ih =>
    intro cur b
    simp only [reSplitGo]
    split
    · split
      · exact ih [] true
      · exact ih [c] false
    · split
      · simp
      · exact ih (c :: cur) false

theorem reSplit_ne_nil (s : String) : reSplit s ≠ [] := by
  intro h
  unfold reSplit at h
  exact reSplitGo_ne_nil s.data [] false (List.map_eq_nil_iff.mp h)

theorem reSplit_map_ne_nil (f : String → String) (s : String) : (reSplit s).map f ≠ [] := by
  intro h
  exact reSplit_ne_nil s (List.map_eq_nil_iff.mp h)

theorem strIn_empty (hay : String) : strIn "" hay = true := by
  show listSubstrB [] hay.data = true
  cases hay.data <;> simp [listSubstrB, listPrefixB]

theorem innerLoop_ok (sentences : List String) :
    ∀ (frags : List String) (k : Nat) (acc res : List String),
    innerLoop sentences frags k acc = Except.ok res →
    res = acc ++ extendSkip sentences frags k := by
  intro frags
  induction frags with
  | nil =>
    intro k acc res h
    simp only [innerLoop] at h
    simp only [Except.ok.injEq] at h
    simp [extendSkip, h]
  | cons f restFrags ih =>
    intro k acc res h
    cases hg : sentences[k + 1]? with
    | none =>
      simp only [innerLoop, hg] at h
      exact absurd h (by simp)
    | some s =>
      simp only [innerLoop, hg] at h
      simp only [extendSkip, hg]
      by_cases hin : strIn f (pyStrip s) = true
      · rw [if_pos hin] at h
        rw [if_pos hin]
        have := ih (k + 1) (acc ++ [pyStrip s]) res h
        simp only [this, List.append_assoc, List.singleton_append]
      · rw [if_neg hin] at h
        rw [if_neg hin]
        exact ih k acc res h

theorem scanFirst_none_outer (sentences : List String) (frag0 : String) (fragRest : List String) :
    ∀ (rest : List String) (i : Nat), scanFirst frag0 rest i = none →
    outerLoop sentences frag0 fragRest rest i = Except.ok none := by
  intro rest
  induction rest with
  | nil => intro i _; rfl
  | cons s rest ih =>
    intro i h
    simp only [scanFirst] at h
    by_cases hin : strIn frag0 (pyStrip s) = true
    · rw [if_pos hin] at h; exact absurd h (by simp)
    · rw [if_neg hin] at h
      simp only [outerLoop, if_neg hin]
      exact ih (i + 1) h

theorem scanFirst_some_outer (sentences : List String) (frag0 : String) (fragRest : List String) :
    ∀ (rest : List String) (i j : Nat) (s : String),
    scanFirst frag0 rest i = some (j, s) →
    outerLoop sentences frag0 fragRest rest i =
      (match innerLoop sentences fragRest j [pyStrip s] with
       | Except.error e => Except.error e
       | Except.ok acc => Except.ok (some (joinSpace acc))) := by
  intro rest
  induction rest with
  | nil => intro i j s h; simp [scanFirst] at h
  | cons t rest ih =>
    intro i j s h
    simp only [scanFirst] at h
    by_cases hin : strIn frag0 (pyStrip t) = true
    · rw [if_pos hin] at h
      simp only [Option.some.injEq, Prod.mk.injEq] at h
      obtain ⟨h1, h2⟩ := h
      subst h1
      subst h2
      simp only [outerLoop, if_pos hin]
    · rw [if_neg hin] at h
      simp only [outerLoop, if_neg hin]
      exact ih (i + 1) j s h

theorem outerLoop_all_false (sentences : List String) (frag0 : String) (fragRest : List String) :
    ∀ (rest : List String) (i : Nat),
    (∀ s ∈ rest, strIn frag0 (pyStrip s) = false) →
    outerLoop sentences frag0 fragRest rest i = Except.ok none := by
  intro rest
  induction rest with
  | nil => intro i _; rfl
  | cons s rest ih =>
    intro i h
    have hs : strIn frag0 (pyStrip s) = false := h s (by simp)
    simp only [outerLoop, hs, Bool.false_eq_true, if_false]
    exact ih (i + 1) (fun t ht => h t (by simp [ht]))

/-! ## Claim C1 -/

/-- C1 counterexample: for captured text `"A. Q. X."` on page text
`"A. X. B. C."`, the code yields context `"A. X."`: after the fragment
`"Q."` fails against the next page sentence, the later fragment `"X."` is
still checked against that same sentence and extends the window, whereas
the claim's stop-on-failure reading (`alignerSpecStop`) yields `"A."`. -/
theorem C1_stop_on_failure_counterexample :
    set_context_sentence "A. Q. X." "A. X. B. C." = Except.ok (some "A. X.")
    ∧ alignerSpecStop "A. Q. X." "A. X. B. C." = some "A."
    ∧ ("A. X." : String) ≠ "A." := by
  refine ⟨rfl, rfl, by decide⟩

/-- C1 (amended): once the accumulation window has begun, each subsequent
annotation fragment is checked against the page sentence immediately
following the current window end (the index advances only on a match); a
fragment that is not a substring of it contributes nothing, but extension
does not stop — the remaining fragments are still checked, against that
same next page sentence. Formally: whenever `set_context_sentence`
returns normally, its result coincides with the skip-on-failure aligner
`alignerSpecSkip`. -/
theorem C1_code_is_skip_on_failure : ∀ (text pageText : String) (r : Option String),
    set_context_sentence text pageText = Except.ok r →
    alignerSpecSkip text pageText = r := by
  intro text pageText r h
  by_cases ht : text = ""
  · unfold set_context_sentence at h
    rw [if_pos ht] at h
    unfold alignerSpecSkip alignCore
    rw [if_pos ht]
    exact Except.ok.inj h
  · obtain ⟨a, as, hcons⟩ :=
      List.exists_cons_of_ne_nil (reSplit_map_ne_nil pyStrip (pyStrip text))
    unfold set_context_sentence at h
    rw [if_neg ht] at h
    simp only [hcons] at h
    unfold alignerSpecSkip alignCore
    rw [if_neg ht]
    simp only [hcons]
    cases hscan : scanFirst a ((reSplit pageText).map normalizeSent) 0 with
    | none =>
      rw [scanFirst_none_outer _ a as _ 0 hscan] at h
      simp only [hscan]
      exact Except.ok.inj h
    | some p =>
      obtain ⟨j, s⟩ := p
      rw [scanFirst_some_outer _ a as _ 0 j s hscan] at h
      simp only [hscan]
      cases hinn : innerLoop ((reSplit pageText).map normalizeSent) as j [pyStrip s] with
      | error e =>
        simp only [hinn] at h
        exact absurd h (by simp)
      | ok acc =>
        simp only [hinn] at h
        have hres := innerLoop_ok _ as j [pyStrip s] acc hinn
        rw [← Except.ok.inj h, hres]
        simp only [List.singleton_append]

/-- C1 witness: the amended equivalence applied at the counterexample
input. -/
theorem C1_code_is_skip_on_failure_witness :
    alignerSpecSkip "A. Q. X." "A. X. B. C." = some "A. X." :=
  C1_code_is_skip_on_failure "A. Q. X." "A. X. B. C." (some "A. X.") rfl

/-! ## Claim C4 -/

/-- C4: for page text `"A. B. C. D."` and captured text `"B. C."`, the
Sentence Aligner produces exactly the context `"B. C."` — the two
consecutive matched page sentences joined by a single space. -/
theorem C4_multi_sentence_context_exact :
    set_context_sentence "B. C." "A. B. C. D." = Except.ok (some "B. C.") := rfl

/-! ## Claim C3 -/

/-- C3: the code does NOT terminate exception-free on every input — when
the captured text splits into two fragments and the first fragment's first
match is the last page sentence, the unguarded `sentences[k+1]` access
raises `IndexError`: concretely for page text `"A."` and captured text
`"A. B."`. -/
theorem C3_index_error_on_last_sentence :
    set_context_sentence "A. B." "A." = Except.error "IndexError" := rfl

/-! ## Claim C7 -/

/-- C7: when no page sentence contains the first annotation-sentence
fragment as a substring, `set_context_sentence` returns normally and the
context stays absent (`none`). -/
theorem C7_no_match_leaves_context_none : ∀ (text pageText : String),
    (∀ s ∈ (reSplit pageText).map normalizeSent,
      strIn (((reSplit (pyStrip text)).map pyStrip).headD "") (pyStrip s) = false) →
    set_context_sentence text pageText = Except.ok none := by
  intro text pageText h
  by_cases ht : text = ""
  · unfold set_context_sentence
    rw [if_pos ht]
  · obtain ⟨a, as, hcons⟩ :=
      List.exists_cons_of_ne_nil (reSplit_map_ne_nil pyStrip (pyStrip text))
    unfold set_context_sentence
    rw [if_neg ht]
    simp only [hcons]
    rw [hcons] at h
    simp only [List.headD_cons] at h
    exact outerLoop_all_false _ a as _ 0 h

/-- C7 witness: the spec's own no-match example — page text
`"Only one sentence here."`, captured text `"nonexistent phrase"`. -/
theorem C7_no_match_witness :
    set_context_sentence "nonexistent phrase" "Only one sentence here." = Except.ok none :=
  C7_no_match_leaves_context_none "nonexistent phrase" "Only one sentence here." (by decide)

/-! ## Claim C2 -/

/-- C2 counterexample: whitespace-only captured text does NOT leave the
context `None` — for captured text `" "` on page text `"A. B."` the scan
runs and the context is set to the first page sentence `"A."`. -/
theorem C2_whitespace_only_sets_context :
    set_context_sentence " " "A. B." = Except.ok (some "A.")
    ∧ Except.ok (some "A.") ≠ (Except.ok none : Except String (Option String)) := by
  refine ⟨rfl, by simp⟩

/-- C2 (amended): empty captured text leaves the context undefined without
scanning (the guard `if not self.text` returns early); whitespace-only
captured text, however, passes the truthiness guard — the trimmed
annotation text becomes empty, its single empty fragment is a substring of
every page sentence, and the context is set to the first page sentence
(stripped). -/
theorem C2_empty_vs_whitespace_guard : ∀ (text pageText : String),
    (text = "" → set_context_sentence text pageText = Except.ok none)
    ∧ (text ≠ "" → pyStrip text = "" →
        set_context_sentence text pageText =
          Except.ok (some (pyStrip (((reSplit pageText).map normalizeSent).headD "")))) := by
  intro text pageText
  constructor
  · intro ht
    unfold set_context_sentence
    rw [if_pos ht]
  · intro ht hstrip
    obtain ⟨s0, srest, hs⟩ :=
      List.exists_cons_of_ne_nil (reSplit_map_ne_nil normalizeSent pageText)
    unfold set_context_sentence
    rw [if_neg ht]
    rw [hstrip]
    have hfrag : (reSplit "").map pyStrip = [""] := rfl
    simp only [hfrag, hs]
    simp only [outerLoop, strIn_empty, if_true]
    simp only [innerLoop, joinSpace]
    simp [List.headD_cons]

/-- C2 witness: the amended theorem applied to the empty captured text and
to the counterexample's whitespace-only captured text. -/
theorem C2_empty_vs_whitespace_guard_witness :
    set_context_sentence "" "B." = Except.ok none
    ∧ set_context_sentence " " "A. B." = Except.ok (some "A.") :=
  ⟨(C2_empty_vs_whitespace_guard "" "B.").1 rfl,
   (C2_empty_vs_whitespace_guard " " "A. B.").2 (by decide) rfl⟩

/-! ## Claim C5 -/

theorem stepPos_postprocess : ∀ (n j i : Nat), i < n →
    stepPos (PStep.postprocessA (j + i)) (annotSteps n j) = some (2 * i) := by
  intro n
  induction n with
  | zero => intro j i h; omega
  | succ m ih =>
    intro j i h
    cases i with
    | zero =>
      simp [annotSteps, stepPos]
    | succ i' =>
      have hne1 : PStep.postprocessA j ≠ PStep.postprocessA (j + (i' + 1)) := by
        simp only [ne_eq, PStep.postprocessA.injEq]
        omega
      have hne2 : PStep.setContextA j ≠ PStep.postprocessA (j + (i' + 1)) := by
        intro hc
        exact PStep.noConfusion hc
      simp only [annotSteps, stepPos, if_neg hne1, if_neg hne2]
      have harg : j + (i' + 1) = (j + 1) + i' := by omega
      rw [harg, ih (j + 1) i' (by omega)]
      rfl

theorem stepPos_setContext : ∀ (n j i : Nat), i < n →
    stepPos (PStep.setContextA (j + i)) (annotSteps n j) = some (2 * i + 1) := by
  intro n
  induction n with
  | zero => intro j i h; omega
  | succ m ih =>
    intro j i h
    cases i with
    | zero =>
      have hne1 : PStep.postprocessA j ≠ PStep.setContextA (j + 0) := by
        intro hc
        exact PStep.noConfusion hc
      simp [annotSteps, stepPos, if_neg hne1]
    | succ i' =>
      have hne1 : PStep.postprocessA j ≠ PStep.setContextA (j + (i' + 1)) := by
        intro hc
        exact PStep.noConfusion hc
      have hne2 : PStep.setContextA j ≠ PStep.setContextA (j + (i' + 1)) := by
        simp only [ne_eq, PStep.setContextA.injEq]
        omega
      simp only [annotSteps, stepPos, if_neg hne1, if_neg hne2]
      have harg : j + (i' + 1) = (j + 1) + i' := by omega
      rw [harg, ih (j + 1) i' (by omega)]
      rfl

/-- C5 counterexample: it is false that the sorting of a page's
annotations happens only after the per-annotation Relationship Resolver /
Sentence Aligner loop — on a page with one annotation, `sortAnnots` is at
trace position 1 while `postprocess` of annotation 0 is at position 3. -/
theorem C5_sort_last_refuted : ¬ (∀ (n i ps pp : Nat), i < n →
    stepPos PStep.sortAnnots (pageTrace n) = some ps →
    stepPos (PStep.postprocessA i) (pageTrace n) = some pp →
    pp < ps) := by
  intro hclaim
  have := hclaim 1 0 1 3 (by omega) (by decide) (by decide)
  omega

/-- C5 (amended): on every processed page the rendering pass comes first,
the annotations and outlines are sorted immediately AFTER rendering and
BEFORE the per-annotation loop, and the Relationship Resolver
(`postprocess`) and Sentence Aligner (`set_context_sentence`) then run per
annotation as the final per-page steps: in the trace of a page with `n`
annotations, `render`, `sortAnnots`, `sortOutlines` sit at positions 0, 1,
2 and the two per-annotation steps of annotation `i` at positions
`3 + 2*i` and `4 + 2*i`. -/
theorem C5_sort_before_resolver_loop : ∀ (n i : Nat), i < n →
    stepPos PStep.render (pageTrace n) = some 0
    ∧ stepPos PStep.sortAnnots (pageTrace n) = some 1
    ∧ stepPos PStep.sortOutlines (pageTrace n) = some 2
    ∧ stepPos (PStep.postprocessA i) (pageTrace n) = some (3 + 2 * i)
    ∧ stepPos (PStep.setContextA i) (pageTrace n) = some (4 + 2 * i) := by
  intro n i h
  have hpp : stepPos (PStep.postprocessA i) (annotSteps n 0) = some (2 * i) := by
    have := stepPos_postprocess n 0 i h
    simpa using this
  have hsc : stepPos (PStep.setContextA i) (annotSteps n 0) = some (2 * i + 1) := by
    have := stepPos_setContext n 0 i h
    simpa using this
  refine ⟨by simp [pageTrace, stepPos], by simp [pageTrace, stepPos], by simp [pageTrace, stepPos], ?_, ?_⟩
  · show stepPos (PStep.postprocessA i)
      (PStep.render :: PStep.sortAnnots :: PStep.sortOutlines :: annotSteps n 0) = some (3 + 2 * i)
    simp only [stepPos, hpp, Option.map_some',
      if_neg (by intro hc; exact PStep.noConfusion hc : PStep.render ≠ PStep.postprocessA i),
      if_neg (by intro hc; exact PStep.noConfusion hc : PStep.sortAnnots ≠ PStep.postprocessA i),
      if_neg (by intro hc; exact PStep.noConfusion hc : PStep.sortOutlines ≠ PStep.postprocessA i)]
    congr 1
    omega
  · show stepPos (PStep.setContextA i)
      (PStep.render :: PStep.sortAnnots :: PStep.sortOutlines :: annotSteps n 0) = some (4 + 2 * i)
    simp only [stepPos, hsc, Option.map_some',
      if_neg (by intro hc; exact PStep.noConfusion hc : PStep.render ≠ PStep.setContextA i),
      if_neg (by intro hc; exact PStep.noConfusion hc : PStep.sortAnnots ≠ PStep.setContextA i),
      if_neg (by intro hc; exact PStep.noConfusion hc : PStep.sortOutlines ≠ PStep.setContextA i)]
    congr 1
    omega

/-- C5 witness: the amended position characterisation on a page with two
annotations, at annotation 1. -/
theorem C5_sort_before_resolver_loop_witness :
    stepPos PStep.sortAnnots (pageTrace 2) = some 1
    ∧ stepPos (PStep.postprocessA 1) (pageTrace 2) = some 5
    ∧ stepPos (PStep.setContextA 1) (pageTrace 2) = some 6 := by
  have h := C5_sort_before_resolver_loop 2 1 (by omega)
  exact ⟨h.2.1, h.2.2.2.1, h.2.2.2.2⟩

/-! ## Claim C6 -/

theorem sumL_cons (y : Nat) (l : List Nat) : sumL (y :: l) = y + sumL l := rfl

theorem cnt_append (x : Nat) (l1 l2 : List Nat) : cnt x (l1 ++ l2) = cnt x l1 + cnt x l2 := by
  induction l1 with
  | nil => simp [cnt]
  | cons y rest ih =>
    show (if y = x then 1 else 0) + cnt x (rest ++ l2)
      = ((if y = x then 1 else 0) + cnt x rest) + cnt x l2
    rw [ih]
    omega

theorem dcount_nil (x : Nat) : dcount [] x = 0 := rfl

theorem dcount_cons (k : Nat) (vs : List Nat) (rest : ODict) (x : Nat) :
    dcount ((k, vs) :: rest) x = cnt x vs + dcount rest x := rfl

theorem dictAdd_count (x : Nat) : ∀ (d : ODict) (k v : Nat),
    dcount (dictAdd d k v) x = dcount d x + (if v = x then 1 else 0) := by
  intro d
  induction d with
  | nil =>
    intro k v
    simp only [dictAdd, dcount_cons, dcount_nil, cnt]
    omega
  | cons e rest ih =>
    intro k v
    obtain ⟨k', vs⟩ := e
    by_cases hk : k' = k
    · simp only [dictAdd, if_pos hk, dcount_cons, cnt_append, cnt]
      omega
    · simp only [dictAdd, if_neg hk, dcount_cons, ih]
      omega

theorem dictPop_count (x : Nat) : ∀ (d : ODict) (k : Nat),
    dcount d x = cnt x (dictPop d k).1 + dcount (dictPop d k).2 x := by
  intro d
  induction d with
  | nil =>
    intro k
    simp [dictPop, dcount_nil, cnt]
  | cons e rest ih =>
    intro k
    obtain ⟨k', vs⟩ := e
    by_cases hk : k' = k
    · simp [dictPop, if_pos hk, dcount_cons]
    · simp only [dictPop, if_neg hk, dcount_cons]
      rw [ih k]
      omega

theorem buildDictsGo_count (x : Nat) : ∀ (prefs : List Pageref) (i : Nat) (d1 d2 : ODict),
    dcount (buildDictsGo prefs i d1 d2).1 x + dcount (buildDictsGo prefs i d1 d2).2 x
      = dcount d1 x + dcount d2 x + (if i ≤ x ∧ x < i + prefs.length then 1 else 0) := by
  intro prefs
  induction prefs with
  | nil =>
    intro i d1 d2
    simp only [buildDictsGo, List.length_nil]
    split_ifs <;> omega
  | cons pr rest ih =>
    intro i d1 d2
    cases pr with
    | byObjid o =>
      simp only [buildDictsGo, List.length_cons]
      rw [ih, dictAdd_count]
      split_ifs <;> omega
    | byPageno p =>
      simp only [buildDictsGo, List.length_cons]
      rw [ih, dictAdd_count]
      split_ifs <;> omega

theorem resolvePages_count (x : Nat) : ∀ (objids : List Nat) (d1 d2 : ODict) (pageno : Nat),
    dcount d1 x + dcount d2 x
      = dcount (resolvePages d1 d2 objids pageno).1 x
        + dcount (resolvePages d1 d2 objids pageno).2.1 x
        + sumL ((resolvePages d1 d2 objids pageno).2.2.map (cnt x)) := by
  intro objids
  induction objids with
  | nil =>
    intro d1 d2 pageno
    simp [resolvePages, sumL]
  | cons objid rest ih =>
    intro d1 d2 pageno
    simp only [resolvePages, List.map_cons, sumL_cons, cnt_append]
    rw [dictPop_count x d1 objid, dictPop_count x d2 pageno]
    have hih := ih (dictPop d1 objid).2 (dictPop d2 pageno).2 (pageno + 1)
    omega

/-- C6: outline resolution in `custom_process_file` is total and
injective — whenever the function returns normally, every outline entry
collected before page enumeration ends up on exactly one page's outline
list (its index occurs exactly once across all per-page lists) and both
pending-resolution mappings are empty; and whenever a non-empty residual
remains after all pages are enumerated, the function surfaces the
`AssertionError` of the two consistency asserts instead of returning. -/
theorem C6_outline_resolution_bijection : ∀ (prefs : List Pageref) (objids : List Nat),
    (∀ out, custom_process_file_outlines prefs objids = Except.ok out →
      (∀ idx, idx < prefs.length → sumL (out.map (cnt idx)) = 1)
      ∧ (resolvePages (buildDicts prefs).1 (buildDicts prefs).2 objids 0).1 = []
      ∧ (resolvePages (buildDicts prefs).1 (buildDicts prefs).2 objids 0).2.1 = [])
    ∧ (∀ r, resolvePages (buildDicts prefs).1 (buildDicts prefs).2 objids 0 = r →
        r.1 ≠ [] ∨ r.2.1 ≠ [] →
        custom_process_file_outlines prefs objids = Except.error "AssertionError") := by
  intro prefs objids
  constructor
  · intro out hok
    unfold custom_process_file_outlines at hok
    by_cases h2 : (resolvePages (buildDicts prefs).1 (buildDicts prefs).2 objids 0).2.1 = []
    · by_cases h1 : (resolvePages (buildDicts prefs).1 (buildDicts prefs).2 objids 0).1 = []
      · rw [if_pos h2, if_pos h1] at hok
        refine ⟨?_, h1, h2⟩
        intro idx hidx
        have hbuild : dcount (buildDicts prefs).1 idx + dcount (buildDicts prefs).2 idx = 1 := by
          unfold buildDicts
          rw [buildDictsGo_count]
          simp only [dcount_nil]
          split_ifs with hc
          · omega
          · exfalso
            omega
        have hres := resolvePages_count idx objids (buildDicts prefs).1 (buildDicts prefs).2 0
        rw [h1, h2] at hres
        simp only [dcount_nil] at hres
        rw [← Except.ok.inj hok]
        omega
      · rw [if_pos h2, if_neg h1] at hok
        exact absurd hok (by simp)
    · rw [if_neg h2] at hok
      exact absurd hok (by simp)
  · intro r hr hne
    simp only [custom_process_file_outlines]
    rw [hr]
    rcases hne with h | h
    · by_cases h2 : r.2.1 = []
      · rw [if_pos h2, if_neg h]
      · rw [if_neg h2]
    · rw [if_neg h]

/-- C6 witness: a two-outline document (one filed by object id, one by raw
page number) over two pages resolves each outline exactly once; a
one-outline document whose raw page number is never reached aborts with
the consistency `AssertionError`. -/
theorem C6_outline_resolution_bijection_witness :
    sumL ([[0], [1]].map (cnt 0)) = 1
    ∧ custom_process_file_outlines [Pageref.byPageno 5] [] = Except.error "AssertionError" :=
  ⟨((C6_outline_resolution_bijection [Pageref.byObjid 10, Pageref.byPageno 1] [10, 20]).1
      [[0], [1]] rfl).1 0 (by decide),
   (C6_outline_resolution_bijection [Pageref.byPageno 5] []).2 ([], [(5, [0])], []) rfl
     (Or.inr (by simp))⟩

/-! ## Claims C8, C9, C10 -/

theorem processColor_no_rt (c : Option PColor) : LogMsg.unexpectedRT ∉ (processColor c).2 := by
  cases c with
  | none => simp [processColor]
  | some pc =>
    cases pc with
    | plist l =>
      simp only [processColor]
      split_ifs <;> simp
    | pother b =>
      cases b <;> simp [processColor]

theorem replyClassify_spec (w : PSVal) (rtv : Option PSVal) :
    replyClassify (some w) rtv =
      if rtv = some (PSVal.lit "Group") then (true, [])
      else if rtv = none ∨ rtv = some (PSVal.lit "R") then (false, [])
      else (false, [LogMsg.unexpectedRT]) := by
  simp only [replyClassify]
  by_cases hG : rtv = some (PSVal.lit "Group")
  · rw [if_pos hG, if_pos hG]
  · rw [if_neg hG, if_neg hG]
    by_cases hp : rtv = none ∨ rtv = some (PSVal.lit "R")
    · rw [if_neg (not_not_intro hp), if_pos hp]
    · rw [if_pos hp, if_neg hp]

/-- C8: a raw annotation whose `Subtype` is a `PSLiteral` outside the
supported `AnnotationType` values is dropped (`None` result) with an
unsupported-subtype warning, except that a subtype in the ignore list
(`Link`, `Popup`) is dropped silently with no warning. -/
theorem C8_unsupported_subtype_dropped : ∀ (pa : RawAnnot) (sname : String),
    pa.subtype = some (PSVal.lit sname) →
    ANNOT_SUBTYPES sname = none →
    (sname ∉ IGNORED_ANNOT_SUBTYPES →
      mkannotationcustom pa = Except.ok (none, [LogMsg.unsupportedSubtype sname]))
    ∧ (sname ∈ IGNORED_ANNOT_SUBTYPES →
      mkannotationcustom pa = Except.ok (none, [])) := by
  intro pa sname hsub hA
  constructor
  · intro hnotmem
    simp only [mkannotationcustom, hsub, hA]
    rw [if_neg hnotmem]
  · intro hmem
    simp only [mkannotationcustom, hsub, hA]
    rw [if_pos hmem]

/-- C8 witness: the unknown subtype `Sound` is dropped with a warning; the
denylisted subtype `Link` is dropped silently. -/
theorem C8_unsupported_subtype_dropped_witness :
    mkannotationcustom { baseRA with subtype := some (PSVal.lit "Sound") }
      = Except.ok (none, [LogMsg.unsupportedSubtype "Sound"])
    ∧ mkannotationcustom { baseRA with subtype := some (PSVal.lit "Link") }
      = Except.ok (none, []) :=
  ⟨(C8_unsupported_subtype_dropped _ "Sound" rfl rfl).1 (by decide),
   (C8_unsupported_subtype_dropped _ "Link" rfl rfl).2 (by decide)⟩

/-- C9: for every constructed annotation carrying an in-reply-to
reference, `is_group_child` holds iff the reply-type marker is the literal
`Group`; an absent marker or the literal `R` gives a plain reply with no
warning; any other marker value gives a plain reply with the
unexpected-reply-type warning logged. -/
theorem C9_reply_type_classification : ∀ (pa : RawAnnot) (a : CAnnot) (log : List LogMsg),
    pa.irt ≠ none →
    mkannotationcustom pa = Except.ok (some a, log) →
    (a.isGroupChild = true ↔ pa.rt = some (PSVal.lit "Group"))
    ∧ ((pa.rt = none ∨ pa.rt = some (PSVal.lit "R")) →
        a.isGroupChild = false ∧ LogMsg.unexpectedRT ∉ log)
    ∧ (∀ v, pa.rt = some v → v ≠ PSVal.lit "Group" → v ≠ PSVal.lit "R" →
        a.isGroupChild = false ∧ LogMsg.unexpectedRT ∈ log) := by
  intro pa a log hirt hok
  obtain ⟨w, hw⟩ : ∃ w, pa.irt = some w := by
    cases hi : pa.irt with
    | none => exact absurd hi hirt
    | some w => exact ⟨w, rfl⟩
  cases hsub : pa.subtype with
  | none =>
    simp only [mkannotationcustom, hsub] at hok
    exact absurd hok (by simp)
  | some psv =>
    cases psv with
    | nonlit t =>
      simp only [mkannotationcustom, hsub] at hok
      exact absurd hok (by simp)
    | lit sname =>
      cases hA : ANNOT_SUBTYPES sname with
      | none =>
        simp only [mkannotationcustom, hsub, hA] at hok
        split at hok <;> simp at hok
      | some t =>
        simp only [mkannotationcustom, hsub, hA, Except.ok.injEq, Prod.mk.injEq,
          Option.some.injEq] at hok
        obtain ⟨ha, hlog⟩ := hok
        have hgc : a.isGroupChild = (replyClassify pa.irt pa.rt).1 := by
          rw [← ha]
        have hmem : (LogMsg.unexpectedRT ∈ log) ↔ (LogMsg.unexpectedRT ∈ (replyClassify pa.irt pa.rt).2) := by
          rw [← hlog]
          simp only [List.mem_append]
          have := processColor_no_rt pa.color
          tauto
        rw [hw] at hgc hmem
        rw [replyClassify_spec w pa.rt] at hgc hmem
        refine ⟨?_, ?_, ?_⟩
        · constructor
          · intro hT
            by_contra hne
            rw [if_neg hne] at hgc
            by_cases hplain : pa.rt = none ∨ pa.rt = some (PSVal.lit "R")
            · rw [if_pos hplain] at hgc
              rw [hgc] at hT
              exact Bool.noConfusion hT
            · rw [if_neg hplain] at hgc
              rw [hgc] at hT
              exact Bool.noConfusion hT
          · intro hG
            rw [if_pos hG] at hgc
            exact hgc
        · intro hplain
          have hneG : ¬ pa.rt = some (PSVal.lit "Group") := by
            rcases hplain with h | h <;> rw [h] <;> simp
          rw [if_neg hneG, if_pos hplain] at hgc hmem
          refine ⟨hgc, ?_⟩
          rw [hmem]
          simp
        · intro v hv hvG hvR
          have hneG : ¬ pa.rt = some (PSVal.lit "Group") := by
            rw [hv]
            simp only [Option.some.injEq]
            exact hvG
          have hnp : ¬ (pa.rt = none ∨ pa.rt = some (PSVal.lit "R")) := by
            intro hor
            rcases hor with h | h
            · rw [hv] at h
              exact Option.noConfusion h
            · rw [hv] at h
              exact hvR (Option.some.inj h)
          rw [if_neg hneG, if_neg hnp] at hgc hmem
          refine ⟨hgc, ?_⟩
          rw [hmem]
          simp

/-- Concrete grouped-reply descriptor for the C9 witness. -/
def groupReplyRA : RawAnnot :=
  { baseRA with
    subtype := some (PSVal.lit "Text")
    irt := some (PSVal.nonlit 0)
    rt := some (PSVal.lit "Group") }

/-- Annotation record produced from `groupReplyRA`. -/
def groupReplyCA : CAnnot :=
  { annotType := AnnotType.Text
    contents := none
    rgb := none
    rect := none
    quadpoints := none
    author := none
    name := none
    createdRaw := none
    inReplyToRef := some (PSVal.nonlit 0)
    isGroupChild := true }

/-- C9 witness: a reply annotation whose reply-type marker is the literal
`Group` is constructed with `is_group_child` true and no warning. -/
theorem C9_reply_type_classification_witness :
    mkannotationcustom groupReplyRA = Except.ok (some groupReplyCA, [])
    ∧ groupReplyCA.isGroupChild = true :=
  ⟨rfl,
   (C9_reply_type_classification groupReplyRA groupReplyCA [] (by simp [groupReplyRA, baseRA]) rfl).1.mpr rfl⟩

/-- C10: a raw annotation whose `Subtype` is absent or not a `PSLiteral`
makes `mkannotationcustom` raise `AssertionError` (the
`assert isinstance(subtype, PSLiteral)`) instead of warning and dropping
the annotation. -/
theorem C10_subtype_assertion_error : ∀ pa : RawAnnot,
    pa.subtype = none ∨ (∃ t, pa.subtype = some (PSVal.nonlit t)) →
    mkannotationcustom pa = Except.error "AssertionError" := by
  intro pa h
  rcases h with h | ⟨t, h⟩ <;> simp [mkannotationcustom, h]

/-- C10 witness: a descriptor with no `Subtype` raises the assertion. -/
theorem C10_subtype_assertion_error_witness :
    mkannotationcustom baseRA = Except.error "AssertionError" :=
  C10_subtype_assertion_error baseRA (Or.inl rfl)
